import Mathlib

/-!
# Verification of the ppxai prompt-based tool-calling engine

Shallow embedding of the tool-calling core of the `ppxai` repository:

* `src/ppxai/engine/tools/base.py`    — `BaseTool` / `FunctionTool`
* `src/ppxai/engine/tools/manager.py` — `ToolManager`
* `src/ppxai/engine/session.py`       — `SessionManager.add_message`
* `src/ppxai/engine/client.py`        — `EngineClient._parse_tool_call`,
  `EngineClient._chat_with_tools`, `EngineClient.chat`

Python dictionaries are modelled as insertion-ordered association lists with
last-write-wins update, JSON values as the inductive `Json`, `json.loads` as
the total function `jsonLoads` (returning `none` where CPython raises
`json.JSONDecodeError`), and exceptions that are *not* caught by the code
under study as the `.error` branch of `Except String`.
-/

namespace PPXAI

/-- Character constants used by the scanner, written by code point so that the
source text stays free of literal brace and backtick characters. -/
def lbrace : Char := Char.ofNat 123

/-- Closing curly brace. -/
def rbrace : Char := Char.ofNat 125

/-- Backtick (code fence delimiter). -/
def bq : Char := Char.ofNat 96

/-- Double quote. -/
def dq : Char := Char.ofNat 34

/-- JSON values, the result type of `json.loads`.  Numbers are modelled as
integers: every numeric literal appearing in the claims and scenarios is an
integer, and the fractional grammar is rejected by `parseNumber` below. -/
inductive Json where
  | str (s : String)
  | num (n : Int)
  | jbool (b : Bool)
  | null
  | arr (elems : List Json)
  | obj (fields : List (String × Json))

/-- Insertion-ordered dictionary update: overwriting an existing key keeps its
position (CPython `dict` semantics, used both by `json.loads` for duplicate
keys and by `ToolManager.register_tool`). -/
def dictInsert {α : Type} (k : String) (v : α) : List (String × α) → List (String × α)
  | [] => [(k, v)]
  | (k', v') :: rest => if k' = k then (k', v) :: rest else (k', v') :: dictInsert k v rest

/-- Dictionary lookup (`d.get(k)` / `k in d` on a CPython dict). -/
def dictGet {α : Type} (fields : List (String × α)) (k : String) : Option α :=
  match fields with
  | [] => none
  | (k', v) :: rest => if k' = k then some v else dictGet rest k

/-- JSON whitespace (the four characters skipped by CPython's `json` scanner). -/
def isJsonWs (c : Char) : Bool := c = ' ' || c = '\t' || c = '\n' || c = '\r'

/-- Drop leading JSON whitespace. -/
def skipWs : List Char → List Char
  | [] => []
  | c :: rest => if isJsonWs c then skipWs rest else c :: rest

/-- Body of a JSON string literal after the opening quote; handles the escape
sequences used anywhere in this repository's prompts and tests.  Returns the
decoded string and the input after the closing quote. -/
def parseStringBody : List Char → List Char → Option (String × List Char)
  | [], _ => none
  | c :: rest, acc =>
    if c = dq then some (String.mk acc.reverse, rest)
    else if c = '\\' then
      match rest with
      | [] => none
      | e :: rest' =>
        if e = dq then parseStringBody rest' (dq :: acc)
        else if e = '\\' then parseStringBody rest' ('\\' :: acc)
        else if e = '/' then parseStringBody rest' ('/' :: acc)
        else if e = 'n' then parseStringBody rest' ('\n' :: acc)
        else if e = 't' then parseStringBody rest' ('\t' :: acc)
        else if e = 'r' then parseStringBody rest' ('\r' :: acc)
        else none
    else parseStringBody rest (c :: acc)

/-- Leading decimal digits of the input. -/
def takeDigits : List Char → List Char × List Char
  | [] => ([], [])
  | c :: rest =>
    if c.isDigit then
      let (ds, r) := takeDigits rest
      (c :: ds, r)
    else ([], c :: rest)

/-- Integer JSON number literal (optionally negative).  Fractional and
exponent forms are outside the modelled grammar (no claim exercises them),
so a digit run followed by `.`/`e`/`E` is rejected rather than misparsed. -/
def parseNumber (cs : List Char) : Option (Json × List Char) :=
  let (neg, cs') := match cs with
    | '-' :: r => (true, r)
    | _ => (false, cs)
  let (ds, rest) := takeDigits cs'
  if ds.isEmpty then none
  else
    match rest with
    | '.' :: _ => none
    | 'e' :: _ => none
    | 'E' :: _ => none
    | _ =>
      let n : Nat := ds.foldl (fun a c => a * 10 + (c.toNat - 48)) 0
      some (.num (if neg then -(n : Int) else (n : Int)), rest)

/-- Grammar position of the recursive-descent scanner: a value, the members
of an object after its opening brace, or the elements of an array after its
opening bracket (`first` is true before any member/element has been read,
allowing the empty collection but not a trailing comma). -/
inductive PMode where
  | val
  | objf (first : Bool) (acc : List (String × Json))
  | arrf (first : Bool) (acc : List Json)

/-- Recursive-descent JSON scanner, fuelled by input length (each unit of
fuel consumes at least one character, so `length + 1` fuel always suffices);
the three mutually recursive procedures of a standard scanner are flattened
into one fuel-structural function so the kernel can evaluate it.  Duplicate
object keys follow CPython: last value wins, first position kept. -/
def parseCore : Nat → PMode → List Char → Option (Json × List Char)
  | 0, _, _ => none
  | f + 1, .val, cs =>
    (match skipWs cs with
    | [] => none
    | c :: rest =>
      if c = dq then
        match parseStringBody rest [] with
        | some (s, r) => some (.str s, r)
        | none => none
      else if c = lbrace then parseCore f (.objf true []) (skipWs rest)
      else if c = '[' then parseCore f (.arrf true []) (skipWs rest)
      else if (c :: rest).take 4 = ['t', 'r', 'u', 'e'] then some (.jbool true, (c :: rest).drop 4)
      else if (c :: rest).take 5 = ['f', 'a', 'l', 's', 'e'] then some (.jbool false, (c :: rest).drop 5)
      else if (c :: rest).take 4 = ['n', 'u', 'l', 'l'] then some (.null, (c :: rest).drop 4)
      else parseNumber (c :: rest))
  | f + 1, .objf first acc, cs =>
    (match cs with
    | [] => none
    | c :: rest =>
      if c = rbrace then
        if first then some (.obj acc, rest) else none
      else if c = dq then
        match parseStringBody rest [] with
        | none => none
        | some (k, r1) =>
          match skipWs r1 with
          | ':' :: r2 =>
            match parseCore f .val (skipWs r2) with
            | none => none
            | some (v, r3) =>
              let acc' := dictInsert k v acc
              match skipWs r3 with
              | ',' :: r4 => parseCore f (.objf false acc') (skipWs r4)
              | c' :: r4 => if c' = rbrace then some (.obj acc', r4) else none
              | [] => none
          | _ => none
      else none)
  | f + 1, .arrf first acc, cs =>
    (match cs with
    | ']' :: rest => if first then some (.arr acc.reverse, rest) else none
    | _ =>
      match parseCore f .val cs with
      | none => none
      | some (v, r1) =>
        match skipWs r1 with
        | ',' :: r2 => parseCore f (.arrf false (v :: acc)) (skipWs r2)
        | ']' :: r2 => some (.arr (v :: acc).reverse, r2)
        | _ => none)

/-- Model of `json.loads`: parse a complete JSON document; trailing non-whitespace is
an error (`Extra data`), and every decode failure is `none`
(`json.JSONDecodeError`). -/
def jsonLoads (s : String) : Option Json :=
  match parseCore (s.length + 1) .val s.data with
  | some (v, rest) => if (skipWs rest).isEmpty then some v else none
  | none => none

/-- Minimal escaping for `json.dumps` of the strings this engine round-trips. -/
def jsonEscapeChar (c : Char) : String :=
  if c = dq then String.mk ['\\', dq]
  else if c = '\\' then "\\\\"
  else if c = '\n' then "\\n"
  else if c = '\t' then "\\t"
  else if c = '\r' then "\\r"
  else String.singleton c

/-- Escape a string for JSON serialization. -/
def jsonEscape (s : String) : String := String.join (s.data.map jsonEscapeChar)

/-- Model of `json.dumps`, used only to render the synthetic `[Tool Call: ...]`
transcript message; the engine never re-parses that rendering, so the
`indent=2` pretty-printing of the source is abstracted to a compact form
(no claim inspects this message's exact text). -/
def jsonDumps : Json → String
  | .str s => String.mk [dq] ++ jsonEscape s ++ String.mk [dq]
  | .num n => toString n
  | .jbool b => if b then "true" else "false"
  | .null => "null"
  | .arr xs => "[" ++ String.intercalate ", " (xs.attach.map (fun e => jsonDumps e.1)) ++ "]"
  | .obj fs => String.mk [lbrace] ++
      String.intercalate ", " (fs.attach.map (fun kv =>
        String.mk [dq] ++ jsonEscape kv.1.1 ++ String.mk [dq] ++ ": " ++ jsonDumps kv.1.2)) ++
      String.mk [rbrace]
decreasing_by
  · have h := List.sizeOf_lt_of_mem e.2
    simp only [Json.arr.sizeOf_spec]
    omega
  · have h := List.sizeOf_lt_of_mem kv.2
    have h2 : sizeOf kv.1.2 < sizeOf kv.1 := by
      obtain ⟨⟨a, b⟩, hk⟩ := kv
      simp only [Prod.mk.sizeOf_spec]
      omega
    simp only [Json.obj.sizeOf_spec]
    omega

/-!
## Tool registry — `src/ppxai/engine/tools/base.py` and `manager.py`
-/

/-- A registered tool (`BaseTool` / `FunctionTool`).  The handler models
`execute(**kwargs)`: a `.error` result is an exception raised by the handler
(the builtin handler bodies themselves are external collaborators per the
spec's scope). -/
structure Tool where
  name : String
  description : String
  parameters : Json
  provider_specific : Option (List String)
  provider_excluded : Option (List String)
  handler : List (String × Json) → Except String String

/-- Model of `BaseTool.is_available_for` (`base.py` lines 41-59). -/
def Tool.is_available_for (t : Tool) (provider : String) : Bool :=
  match t.provider_specific with
  | some l => l.contains provider
  | none =>
    match t.provider_excluded with
    | some l => !(l.contains provider)
    | none => true

/-- State of `ToolManager`: the `_tools` dict, the `_provider` set by
`set_provider` (`none` when never called), and `max_iterations`. -/
structure ToolManager where
  tools : List (String × Tool)
  provider : Option String
  max_iterations : Nat

/-- A fresh `ToolManager()` (`manager.py` lines 18-22). -/
def ToolManager.init : ToolManager := { tools := [], provider := none, max_iterations := 15 }

/-- Model of `ToolManager.register_tool`: insert by name, re-registration overwrites. -/
def ToolManager.register_tool (tm : ToolManager) (t : Tool) : ToolManager :=
  { tm with tools := dictInsert t.name t tm.tools }

/-- Model of `ToolManager.set_provider`. -/
def ToolManager.set_provider (tm : ToolManager) (p : String) : ToolManager :=
  { tm with provider := some p }

/-- Model of `ToolManager.get_tool` (`manager.py` lines 69-83): `None` unless the tool
is registered AND available; the availability check is skipped when
`self._provider` is falsy (never set, or the empty string). -/
def ToolManager.get_tool (tm : ToolManager) (name : String) : Option Tool :=
  match dictGet tm.tools name with
  | none => none
  | some tool =>
    match tm.provider with
    | none => some tool
    | some p =>
      if p = "" then some tool
      else if tool.is_available_for p then some tool
      else none

/-- Model of `ToolManager.get_available_tools` (`manager.py` lines 85-93); note this
one tests `self._provider is None`, not truthiness. -/
def ToolManager.get_available_tools (tm : ToolManager) : List Tool :=
  match tm.provider with
  | none => tm.tools.map (fun kv => kv.2)
  | some p => (tm.tools.map (fun kv => kv.2)).filter (fun t => t.is_available_for p)

/-- Model of `ToolManager.execute_tool` (`manager.py` lines 106-122).  The first
component is the call's outcome: the `ValueError` for a missing/unavailable
tool or the handler's own result.  The second component is the list of
handlers actually invoked by this call (i.e. the names for which the
`await tool.execute(**kwargs)` line was reached), used to state the
no-dispatch claims. -/
def ToolManager.execute_tool (tm : ToolManager) (name : String)
    (kwargs : List (String × Json)) : Except String String × List String :=
  match tm.get_tool name with
  | none => (.error ("Tool not found or not available: " ++ name), [])
  | some t => (t.handler kwargs, [name])

/-- Model of `ToolManager.clear`. -/
def ToolManager.clear (tm : ToolManager) : ToolManager := { tm with tools := [] }

/-!
### The tools prompt — `ToolManager.get_tools_prompt` (`manager.py` 124-162)
-/

/-- Reading of `tool.parameters.get("properties", ...)` as an ordered field list. -/
def propertiesList (params : Json) : List (String × Json) :=
  match params with
  | .obj fs =>
    match dictGet fs "properties" with
    | some (.obj ps) => ps
    | _ => []
  | _ => []

/-- Test `param in tool.parameters.get("required", [])`. -/
def requiredContains (params : Json) (param : String) : Bool :=
  match params with
  | .obj fs =>
    match dictGet fs "required" with
    | some (.arr xs) => xs.any (fun j => match j with | .str s => s = param | _ => false)
    | _ => false
  | _ => false

/-- Reading of `info.get('description', '')` for a parameter's schema entry. -/
def paramDescription (info : Json) : String :=
  match info with
  | .obj fs =>
    match dictGet fs "description" with
    | some (.str d) => d
    | _ => ""
  | _ => ""

/-- One `  - \x60param\x60 (required): ...` line of the prompt. -/
def paramLine (params : Json) (kv : String × Json) : String :=
  "  - " ++ String.mk [bq] ++ kv.1 ++ String.mk [bq] ++ " (" ++
    (if requiredContains params kv.1 then "required" else "optional") ++ "): " ++
    paramDescription kv.2 ++ "\n"

/-- The `### name` heading line opening a tool's prompt section. -/
def toolHeading (t : Tool) : String :=
  "### " ++ t.name ++ "\n"

/-- The rest of a tool's prompt section: description and parameter lines. -/
def sectionTail (t : Tool) : String :=
  t.description ++ "\n" ++
    (if (propertiesList t.parameters).isEmpty then ""
     else "Parameters:\n" ++ String.join ((propertiesList t.parameters).map (paramLine t.parameters))) ++
    "\n"

/-- The `### name` block the prompt devotes to one tool. -/
def toolSection (t : Tool) : String :=
  toolHeading t ++ sectionTail t

/-- The `for tool in tools: prompt += ...` accumulation. -/
def toolSections : List Tool → String
  | [] => ""
  | t :: rest => toolSection t ++ toolSections rest

/-- Fixed text before the per-tool sections (braces escaped as `\x7b`/`\x7d`). -/
def promptHeader : String :=
  "# IMPORTANT: You Have Access to Tools\n\n" ++
  "You MUST use these tools when the user asks for information you don't have access to natively.\n" ++
  "You are an AI assistant with tool capabilities. When you need real-time information (like current time, weather, web pages), you MUST call the appropriate tool.\n\n" ++
  "## How to Call a Tool\n\n" ++
  "To use a tool, respond ONLY with a JSON code block in this exact format:\n\n" ++
  "```json\n\x7b\n  \"tool\": \"tool_name\",\n  \"arguments\": \x7b\"param\": \"value\"\x7d\n\x7d\n```\n\n" ++
  "## Available Tools:\n\n"

/-- Fixed text after the per-tool sections. -/
def promptFooter : String :=
  "## CRITICAL INSTRUCTIONS:\n\n" ++
  "1. **For date/time questions**: ALWAYS use the `get_datetime` tool. Do NOT say you don't have access.\n" ++
  "2. **For weather questions**: ALWAYS use the `get_weather` tool. Do NOT say you can't access weather.\n" ++
  "3. **For web searches**: Use the `web_search` tool to find current information.\n" ++
  "4. **For reading web pages**: Use the `fetch_url` tool to read URL contents.\n" ++
  "5. **For system operations**: Use the `execute_shell_command` tool to run commands, create directories, file operations, etc.\n" ++
  "6. When calling a tool, output ONLY the JSON block, nothing else.\n" ++
  "7. After receiving tool results, provide a helpful response based on that data.\n" ++
  "8. NEVER say 'I don't have access to real-time data' or 'I can't execute commands' - you DO have access via these tools!\n"

/-- Model of `ToolManager.get_tools_prompt`: empty when no tool is available, else the
header, one section per available tool, and the closing directives. -/
def ToolManager.get_tools_prompt (tm : ToolManager) : String :=
  let tools := tm.get_available_tools
  if tools.isEmpty then ""
  else promptHeader ++ toolSections tools ++ promptFooter

/-!
## Tool-call parsing — `EngineClient._parse_tool_call` (`client.py` 463-553)

The parser produces `Except String (Option Json)`: `.ok (some call)` is a
returned tool call, `.ok none` is "no call found", and `.error` is an
exception escaping `_parse_tool_call` (the `try` blocks catch only
`json.JSONDecodeError`, so a `TypeError` from hashing an unhashable `tool`
value propagates).
-/

/-- Exception text for `dict.get` applied to an unhashable key, as raised by
`self._tools.get(tool_name)` when the model put a JSON object or array in
the `tool` field. -/
def unhashableError : String := "TypeError: unhashable type"

/-- Parameter names a tool declares:
`set(tool.parameters.get("properties", \x7b\x7d).keys())`. -/
def expectedParams (t : Tool) : List String :=
  (propertiesList t.parameters).map (fun kv => kv.1)

/-- Top-level keys of a flattened candidate that are folded into `arguments`:
the `for key, value in data.items()` loop of `normalize_tool_call`. -/
def matchedArgs (t : Tool) (fields : List (String × Json)) : List (String × Json) :=
  fields.filter (fun kv => kv.1 != "tool" && (expectedParams t).contains kv.1)

/-- Model of `normalize_tool_call` (`client.py` 472-494).  A `data` with no
`tool` key, an unregistered/unavailable tool, or no resolvable arguments is
rejected (`.ok none`); a dict or list in the `tool` field raises (`.error`);
a candidate that already has `arguments` is returned unchanged. -/
def normalize_tool_call (tm : ToolManager) (data : Json) : Except String (Option Json) :=
  match data with
  | .obj fields =>
    match dictGet fields "tool" with
    | none => .ok none
    | some tv =>
      match tv with
      | .obj _ => .error unhashableError
      | .arr _ => .error unhashableError
      | .str name =>
        match tm.get_tool name with
        | none => .ok none
        | some t =>
          if (dictGet fields "arguments").isSome then .ok (some data)
          else if (matchedArgs t fields).isEmpty then .ok none
          else .ok (some (.obj [("tool", .str name), ("arguments", .obj (matchedArgs t fields))]))
      | _ => .ok none
  | _ => .ok none

/-- Regex whitespace class `\s` of the code-block pattern. -/
def isReWs (c : Char) : Bool :=
  c = ' ' || c = '\t' || c = '\n' || c = '\r' || c = Char.ofNat 12 || c = Char.ofNat 11

/-- Drop leading regex whitespace. -/
def skipReWs : List Char → List Char
  | [] => []
  | c :: rest => if isReWs c then skipReWs rest else c :: rest

/-- Lazy tail of the capture group `(\x7b[\s\S]*?\x7d)` followed by
`\s*` and a closing fence: extend the capture to the *nearest* closing brace
that is followed by optional whitespace and three backticks.  Returns the
capture and the input after the closing fence. -/
def fenceLazyEnd : List Char → List Char → Option (String × List Char)
  | [], _ => none
  | c :: rest, accRev =>
    if c = rbrace then
      let r := skipReWs rest
      if r.take 3 = [bq, bq, bq] then some (String.mk (c :: accRev).reverse, r.drop 3)
      else fenceLazyEnd rest (c :: accRev)
    else fenceLazyEnd rest (c :: accRev)

/-- Attempt of the code-block pattern at one position: three backticks, an
optional literal `json`, `\s*`, then the captured brace group. -/
def tryFenceAt (cs : List Char) : Option (String × List Char) :=
  if cs.take 3 = [bq, bq, bq] then
    let r1 := cs.drop 3
    let r2 := if r1.take 4 = ['j', 's', 'o', 'n'] then r1.drop 4 else r1
    match skipReWs r2 with
    | c :: r3 => if c = lbrace then fenceLazyEnd r3 [lbrace] else none
    | [] => none
  else none

/-- Model of `re.findall(code_block_pattern, text)`: leftmost non-overlapping
matches, resuming after each match's closing fence. -/
def fenceScan : Nat → List Char → List String
  | 0, _ => []
  | f + 1, cs =>
    match cs with
    | [] => []
    | _ :: rest =>
      match tryFenceAt cs with
      | some (capture, remaining) => capture :: fenceScan f remaining
      | none => fenceScan f rest

/-- The literal `\x7b"tool"` searched for by the brace-depth stage. -/
def toolPat : List Char := [lbrace, dq, 't', 'o', 'o', 'l', dq]

/-- Position of the next occurrence of `pat` at or after index `i`
(`text.find(pat, i)`). -/
def findPatFrom (cs pat : List Char) : Nat → Nat → Option Nat
  | 0, _ => none
  | f + 1, i =>
    if i > cs.length then none
    else if pat.isPrefixOf (cs.drop i) then some i
    else findPatFrom cs pat f (i + 1)

/-- Brace-depth scan of `_parse_tool_call` (`client.py` 530-539): starting at
a `\x7b`, count every brace until depth returns to zero; result is the length
of the balanced slice. -/
def scanBalanced : List Char → Nat → Nat → Option Nat
  | [], _, _ => none
  | c :: rest, depth, n =>
    if c = lbrace then scanBalanced rest (depth + 1) (n + 1)
    else if c = rbrace then
      match depth with
      | 0 => none
      | 1 => some (n + 1)
      | d + 1 => scanBalanced rest d (n + 1)
    else scanBalanced rest depth (n + 1)

/-- The `while True` loop over `text.find('\x7b"tool"', start_idx)`
(`client.py` 523-551), collecting each balanced slice in scan order; an
unbalanced occurrence advances one character, a balanced one advances past
its closing brace. -/
def braceCands : Nat → List Char → Nat → List String
  | 0, _, _ => []
  | f + 1, cs, start_idx =>
    match findPatFrom cs toolPat (cs.length + 1) start_idx with
    | none => []
    | some start =>
      match scanBalanced (cs.drop start) 0 0 with
      | some len => String.mk ((cs.drop start).take len) :: braceCands f cs (start + len)
      | none => braceCands f cs (start + 1)

/-- Sequential candidate processing shared by all three extraction stages:
`json.JSONDecodeError` is swallowed and the next candidate tried, a candidate
that normalizes is returned, and an exception from normalization propagates. -/
def tryCands (tm : ToolManager) : List String → Except String (Option Json)
  | [] => .ok none
  | c :: rest =>
    match jsonLoads c with
    | none => tryCands tm rest
    | some data =>
      match normalize_tool_call tm data with
      | .error e => .error e
      | .ok (some n) => .ok (some n)
      | .ok none => tryCands tm rest

/-- Python `str.isspace` characters occurring in model output
(`text.strip()`). -/
def isPyWs (c : Char) : Bool :=
  c = ' ' || c = '\t' || c = '\n' || c = '\r' || c = Char.ofNat 11 || c = Char.ofNat 12

/-- Drop leading Python whitespace. -/
def dropPyWs : List Char → List Char
  | [] => []
  | c :: rest => if isPyWs c then dropPyWs rest else c :: rest

/-- Model of `text.strip()`. -/
def pyStrip (s : String) : String :=
  String.mk ((dropPyWs ((dropPyWs s.data).reverse)).reverse)

/-- Test `text.startswith(c)` for a single character. -/
def firstCharIs (s : String) (c : Char) : Bool :=
  match s.data with
  | x :: _ => x = c
  | [] => false

/-- Test `text.endswith(c)` for a single character. -/
def lastCharIs (s : String) (c : Char) : Bool :=
  match s.data.reverse with
  | x :: _ => x = c
  | [] => false

/-- Model of `EngineClient._parse_tool_call`: whole stripped response first,
then fenced code blocks, then brace-depth candidates. -/
def parse_tool_call (tm : ToolManager) (text : String) : Except String (Option Json) :=
  let ts := pyStrip text
  let cand1 := if firstCharIs ts lbrace && lastCharIs ts rbrace then [ts] else []
  tryCands tm (cand1 ++ fenceScan (text.length + 1) text.data ++
    braceCands (text.length + 1) text.data 0)

/-!
## The tool loop — `EngineClient._chat_with_tools` / `chat` (`client.py` 299-461)

A provider call (`self.provider.chat(...)` iterated to its final event) is
abstracted to `Except String String`: `.error e` is the single `ERROR` event a
provider yields when the transport raises, `.ok text` is the `STREAM_END`
payload.  A whole turn consumes responses from an infinite supply
`responses : Nat → Except String String` indexed by a call counter.
`STREAM_START`/`STREAM_CHUNK` events are invisible to the loop's control flow
and are not modelled.
-/

/-- A transcript message (`types.py` `Message`); roles are the literal
strings `"user"`, `"assistant"`, `"system"`. -/
structure Message where
  role : String
  content : String
deriving DecidableEq

/-- Events of `_chat_with_tools` that are observable per claim: tool
call/result/error, the final `STREAM_END`, `ERROR` and `INFO`. -/
inductive Event where
  | tool_call (tool : String) (arguments : Json)
  | tool_result (tool : String) (result : String)
  | tool_error (tool : String) (error : String)
  | stream_end (data : String)
  | error (data : String)
  | info (data : String)

/-- How a turn ended: final answer (`return` after the no-call branch),
budget exhaustion, transport error (`ERROR` then `return`), or an exception
escaping the generator (the uncaught `TypeError` of the parser). -/
inductive TurnOutcome where
  | done
  | budget_exceeded
  | fatal_error
  | uncaught (msg : String)
deriving DecidableEq

/-- Mutable state of one `_chat_with_tools` invocation: the session
transcript (`self.session.messages`, which `add_message` appends to), the
events yielded so far, the `iteration` counter, the provider-call counter,
and the accumulated handler-invocation record from `execute_tool`. -/
structure LoopState where
  messages : List Message
  events : List Event
  iterations : Nat
  calls : Nat
  invoked : List String

/-- Result of a finished turn. -/
structure TurnResult where
  messages : List Message
  events : List Event
  iterations : Nat
  calls : Nat
  invoked : List String
  outcome : TurnOutcome

/-- Truncation of a tool result for the `TOOL_RESULT` event payload
(`result[:500] + "..."` when longer than 500). -/
def truncate500 (r : String) : String :=
  if r.length > 500 then (String.mk (r.data.take 500)) ++ "..." else r

/-- Synthetic assistant message recording a tool call. -/
def toolCallMsg (name : String) (call : Json) : String :=
  "[Tool Call: " ++ name ++ "]\n```json\n" ++ jsonDumps call ++ "\n```"

/-- Synthetic user message carrying a tool result back to the model. -/
def toolResultMsg (name result : String) : String :=
  "[Tool Result for " ++ name ++ "]\n```\n" ++ result ++
    "\n```\n\nNow provide your final answer based on this result."

/-- Synthetic user message carrying a tool error back to the model. -/
def toolErrorMsg (err : String) : String :=
  "[Tool Error]\n" ++ err ++ "\n\nPlease provide an answer without using that tool."

/-- Synthetic assistant message appended when the iteration budget is hit. -/
def budgetMsg : String :=
  "[Tool iterations limit reached. Please try again with a simpler query.]"

/-- The `INFO` event payload of the budget branch. -/
def budgetInfo : String := "Maximum tool iterations reached"

/-- Field read `tool_call["tool"]` (always a string key by the normalization
invariant; the default is never reached on parser output). -/
def jGetStr (j : Json) (k : String) : String :=
  match j with
  | .obj fs =>
    match dictGet fs k with
    | some (.str s) => s
    | _ => ""
  | _ => ""

/-- Field read `tool_call.get("arguments", \x7b\x7d)`. -/
def jGetArguments (j : Json) : Json :=
  match j with
  | .obj fs => (dictGet fs "arguments").getD (.obj [])
  | _ => .obj []

/-- One iteration of the `while` body after the `iteration < max_iterations`
test: bump the counter, call the provider, parse, and either terminate
(`Sum.inl`) or execute the tool, append the synthetic pair, and continue
(`Sum.inr`).  `stream=True` re-requests the final answer with a second
provider call, mirroring `client.py` 444-452. -/
def loopBody (tm : ToolManager) (responses : Nat → Except String String)
    (stream : Bool) (st : LoopState) : TurnResult ⊕ LoopState :=
  let st1 : LoopState := { st with iterations := st.iterations + 1, calls := st.calls + 1 }
  match responses st.calls with
  | .error e =>
    .inl { messages := st1.messages, events := st1.events ++ [.error e],
           iterations := st1.iterations, calls := st1.calls, invoked := st1.invoked,
           outcome := .fatal_error }
  | .ok full_response =>
    match parse_tool_call tm full_response with
    | .error e =>
      .inl { messages := st1.messages, events := st1.events,
             iterations := st1.iterations, calls := st1.calls, invoked := st1.invoked,
             outcome := .uncaught e }
    | .ok (some tool_call) =>
      let tool_name := jGetStr tool_call "tool"
      let tool_args := jGetArguments tool_call
      let executed : Except String String × List String :=
        match tool_args with
        | .obj kwargs => tm.execute_tool tool_name kwargs
        | _ => (.error "TypeError: arguments do not form a mapping", [])
      match executed with
      | (.ok result, inv) =>
        .inr { st1 with
          events := st1.events ++ [.tool_call tool_name tool_args,
            .tool_result tool_name (truncate500 result)],
          messages := st1.messages ++ [⟨"assistant", toolCallMsg tool_name tool_call⟩,
            ⟨"user", toolResultMsg tool_name result⟩],
          invoked := st1.invoked ++ inv }
      | (.error e, inv) =>
        .inr { st1 with
          events := st1.events ++ [.tool_call tool_name tool_args, .tool_error tool_name e],
          messages := st1.messages ++ [⟨"assistant", toolCallMsg tool_name tool_call⟩,
            ⟨"user", toolErrorMsg e⟩],
          invoked := st1.invoked ++ inv }
    | .ok none =>
      if stream then
        match responses st1.calls with
        | .ok t =>
          .inl { messages := st1.messages ++ [⟨"assistant", t⟩],
                 events := st1.events ++ [.stream_end t],
                 iterations := st1.iterations, calls := st1.calls + 1,
                 invoked := st1.invoked, outcome := .done }
        | .error e =>
          .inl { messages := st1.messages, events := st1.events ++ [.error e],
                 iterations := st1.iterations, calls := st1.calls + 1,
                 invoked := st1.invoked, outcome := .done }
      else
        .inl { messages := st1.messages ++ [⟨"assistant", full_response⟩],
               events := st1.events ++ [.stream_end full_response],
               iterations := st1.iterations, calls := st1.calls,
               invoked := st1.invoked, outcome := .done }

/-- Terminal state of the budget branch (`client.py` 456-461): the `while`
condition failed, an `INFO` event is yielded and the synthetic assistant
message appended. -/
def budgetResult (st : LoopState) : TurnResult :=
  { messages := st.messages ++ [⟨"assistant", budgetMsg⟩],
    events := st.events ++ [.info budgetInfo],
    iterations := st.iterations, calls := st.calls, invoked := st.invoked,
    outcome := .budget_exceeded }

/-- The `while iteration < max_iterations` loop, fuelled by the number of
iterations still allowed. -/
def chatToolsLoop (tm : ToolManager) (responses : Nat → Except String String)
    (stream : Bool) : Nat → LoopState → TurnResult
  | 0, st => budgetResult st
  | fuel + 1, st =>
    match loopBody tm responses stream st with
    | .inl res => res
    | .inr st' => chatToolsLoop tm responses stream fuel st'

/-- Model of `EngineClient._chat_with_tools` started on a given transcript. -/
def chat_with_tools (tm : ToolManager) (responses : Nat → Except String String)
    (stream : Bool) (messages : List Message) : TurnResult :=
  chatToolsLoop tm responses stream tm.max_iterations
    { messages := messages, events := [], iterations := 0, calls := 0, invoked := [] }

/-- Model of one `EngineClient.chat` turn with tools enabled: the user
message is appended to the session (`client.py` 346) and the tool loop runs.
Context auto-injection only rewrites the message content, so it is taken as
the identity here. -/
def runTurn (tm : ToolManager) (responses : Nat → Except String String)
    (stream : Bool) (session : List Message) (userMsg : String) : TurnResult :=
  chat_with_tools tm responses stream (session ++ [⟨"user", userMsg⟩])

/-!
## Concrete fixtures

Mirrors of builtin registrations used by the scenarios: `calculator`
(`tools/builtin/calculator.py`, no provider restriction) and `web_search`
(`tools/builtin/web.py`, `provider_excluded=["perplexity"]`).  Handler
*bodies* are outside the spec's scope, so they are opaque stand-ins here.
-/

/-- The `calculator` registration (schema from `calculator.py` 32-44). -/
def calcTool : Tool :=
  { name := "calculator", description := "Evaluate a mathematical expression",
    parameters := .obj [("type", .str "object"),
      ("properties", .obj [("expression",
        .obj [("type", .str "string"), ("description", .str "Math expression (e.g., '2 + 2')")])]),
      ("required", .arr [.str "expression"])],
    provider_specific := none, provider_excluded := none,
    handler := fun _ => .ok "4" }

/-- The `web_search` registration (schema from `web.py` 217-235), excluded for
the `perplexity` provider. -/
def webTool : Tool :=
  { name := "web_search",
    description := "Search the web using DuckDuckGo. Returns titles, URLs, and snippets of top results",
    parameters := .obj [("type", .str "object"),
      ("properties", .obj [("query",
        .obj [("type", .str "string"), ("description", .str "Search query (e.g., 'Python tutorials', 'weather API documentation')")])]),
      ("required", .arr [.str "query"])],
    provider_specific := none, provider_excluded := some ["perplexity"],
    handler := fun _ => .ok "results" }

/-- A manager with both tools registered and `set_provider("perplexity")`
called, as after `enable_tools()` on the perplexity provider. -/
def TMcalc : ToolManager :=
  ((ToolManager.init.register_tool calcTool).register_tool webTool).set_provider "perplexity"

/-- The same manager after `/tools config max_iterations 3`
(`EngineClient.set_tool_config`). -/
def TM3 : ToolManager := { TMcalc with max_iterations := 3 }

/-- A manager on which `set_provider` was never called. -/
def TMnoProv : ToolManager :=
  (ToolManager.init.register_tool calcTool).register_tool webTool

/-- A well-formed whole-response tool call used by the loop scenarios. -/
def calcCallText : String :=
  "\x7b\"tool\": \"calculator\", \"arguments\": \x7b\"expression\": \"2+2\"\x7d\x7d"

/-!
## Loop lemmas
-/

/-- Handlers recorded by `execute_tool` all passed the `get_tool` gate. -/
theorem execute_tool_invoked_available (tm : ToolManager) (name : String)
    (kwargs : List (String × Json)) :
    ∀ n ∈ (tm.execute_tool name kwargs).2, (tm.get_tool n).isSome := by
  unfold ToolManager.execute_tool
  cases h : tm.get_tool name with
  | none => simp
  | some t =>
    simp only [h]
    intro n hn
    simp only [List.mem_singleton] at hn
    subst hn
    simp [h]

/-- Case analysis of one loop-body step: a terminal step bumps the iteration
counter, appends at most one assistant message and invokes no handler; a
continuing step bumps the counter, appends exactly one assistant/user pair
and invokes only handlers that passed the `get_tool` gate. -/
theorem loopBody_cases (tm : ToolManager) (responses : Nat → Except String String)
    (stream : Bool) (st : LoopState) :
    (∃ res, loopBody tm responses stream st = .inl res ∧
      res.iterations = st.iterations + 1 ∧
      (res.messages = st.messages ∨ ∃ a, res.messages = st.messages ++ [⟨"assistant", a⟩]) ∧
      res.invoked = st.invoked) ∨
    (∃ st', loopBody tm responses stream st = .inr st' ∧
      st'.iterations = st.iterations + 1 ∧
      (∃ a b, st'.messages = st.messages ++ [⟨"assistant", a⟩, ⟨"user", b⟩]) ∧
      ∃ inv, st'.invoked = st.invoked ++ inv ∧ ∀ n ∈ inv, (tm.get_tool n).isSome) := by
  unfold loopBody
  dsimp only
  cases hr : responses st.calls with
  | error e =>
    left
    exact ⟨_, rfl, rfl, Or.inl rfl, rfl⟩
  | ok fr =>
    dsimp only
    cases hp : parse_tool_call tm fr with
    | error e =>
      left
      exact ⟨_, rfl, rfl, Or.inl rfl, rfl⟩
    | ok o =>
      cases o with
      | none =>
        dsimp only
        cases stream with
        | false =>
          left
          exact ⟨_, rfl, rfl, Or.inr ⟨fr, rfl⟩, rfl⟩
        | true =>
          cases hr2 : responses (st.calls + 1) with
          | ok t =>
            left
            exact ⟨_, rfl, rfl, Or.inr ⟨t, rfl⟩, rfl⟩
          | error e =>
            left
            exact ⟨_, rfl, rfl, Or.inl rfl, rfl⟩
      | some call =>
        right
        dsimp only
        cases hargs : jGetArguments call with
        | obj kwargs =>
          dsimp only
          cases hex : tm.execute_tool (jGetStr call "tool") kwargs with
          | mk outcome inv =>
            have hav : ∀ n ∈ inv, (tm.get_tool n).isSome := by
              intro n hn
              exact execute_tool_invoked_available tm (jGetStr call "tool") kwargs n
                (by rw [hex]; exact hn)
            cases outcome with
            | ok result =>
              exact ⟨_, rfl, rfl, ⟨_, _, rfl⟩, inv, rfl, hav⟩
            | error e =>
              exact ⟨_, rfl, rfl, ⟨_, _, rfl⟩, inv, rfl, hav⟩
        | str s' =>
          exact ⟨_, rfl, rfl, ⟨_, _, rfl⟩, [], by simp, by simp⟩
        | num n' =>
          exact ⟨_, rfl, rfl, ⟨_, _, rfl⟩, [], by simp, by simp⟩
        | jbool b' =>
          exact ⟨_, rfl, rfl, ⟨_, _, rfl⟩, [], by simp, by simp⟩
        | null =>
          exact ⟨_, rfl, rfl, ⟨_, _, rfl⟩, [], by simp, by simp⟩
        | arr xs =>
          exact ⟨_, rfl, rfl, ⟨_, _, rfl⟩, [], by simp, by simp⟩

/-- The loop performs at most `fuel` further iterations. -/
theorem chatToolsLoop_iterations_le (tm : ToolManager)
    (responses : Nat → Except String String) (stream : Bool) :
    ∀ (fuel : Nat) (st : LoopState),
      (chatToolsLoop tm responses stream fuel st).iterations ≤ st.iterations + fuel := by
  intro fuel
  induction fuel with
  | zero =>
    intro st
    simp [chatToolsLoop, budgetResult]
  | succ f ih =>
    intro st
    rcases loopBody_cases tm responses stream st with ⟨res, heq, hit, _, _⟩ | ⟨st', heq, hit, _, _⟩
    · simp only [chatToolsLoop, heq]
      omega
    · simp only [chatToolsLoop, heq]
      have h := ih st'
      omega

/-- Every handler the loop ever invokes passed the `get_tool` gate (or was
already recorded before the loop started). -/
theorem chatToolsLoop_invoked_available (tm : ToolManager)
    (responses : Nat → Except String String) (stream : Bool) :
    ∀ (fuel : Nat) (st : LoopState) (n : String),
      n ∈ (chatToolsLoop tm responses stream fuel st).invoked →
      n ∈ st.invoked ∨ (tm.get_tool n).isSome := by
  intro fuel
  induction fuel with
  | zero =>
    intro st n h
    left
    simpa [chatToolsLoop, budgetResult] using h
  | succ f ih =>
    intro st n h
    rcases loopBody_cases tm responses stream st with
      ⟨res, heq, _, _, hin⟩ | ⟨st', heq, _, _, inv, hin, hav⟩
    · simp only [chatToolsLoop, heq] at h
      left
      rw [hin] at h
      exact h
    · simp only [chatToolsLoop, heq] at h
      rcases ih st' n h with h' | h'
      · rw [hin] at h'
        rcases List.mem_append.mp h' with h2 | h2
        · left; exact h2
        · right; exact hav n h2
      · right; exact h'

/-!
## Transcript alternation
-/

/-- The transcript property of P2: roles strictly alternate and every message
is a user or assistant turn. -/
def validRoles (msgs : List Message) : Prop :=
  List.Chain' (fun a b => a.role ≠ b.role) msgs ∧
  ∀ m ∈ msgs, m.role = "user" ∨ m.role = "assistant"

/-- Appending one message of a different role than the current last message
preserves alternation. -/
theorem validRoles_concat (l : List Message) (m : Message)
    (h : validRoles l) (hm : m.role = "user" ∨ m.role = "assistant")
    (hlast : ∀ x, l.getLast? = some x → x.role ≠ m.role) :
    validRoles (l ++ [m]) := by
  constructor
  · rw [List.chain'_append]
    refine ⟨h.1, List.chain'_singleton m, ?_⟩
    intro x hx y hy
    simp only [List.head?_cons, Option.mem_def, Option.some.injEq] at hy
    subst hy
    exact hlast x hx
  · intro x hx
    rcases List.mem_append.mp hx with h1 | h2
    · exact h.2 x h1
    · simp only [List.mem_singleton] at h2
      subst h2
      exact hm

/-- Alternation together with a user-role last message is preserved by the
loop body's assistant/user pair and turned into plain alternation by every
terminal branch. -/
theorem chatToolsLoop_roles (tm : ToolManager)
    (responses : Nat → Except String String) (stream : Bool) :
    ∀ (fuel : Nat) (st : LoopState),
      validRoles st.messages →
      (∃ m, st.messages.getLast? = some m ∧ m.role = "user") →
      validRoles (chatToolsLoop tm responses stream fuel st).messages := by
  intro fuel
  induction fuel with
  | zero =>
    intro st hv ⟨m, hm, hmr⟩
    simp only [chatToolsLoop, budgetResult]
    refine validRoles_concat _ _ hv (Or.inr rfl) ?_
    intro x hx
    rw [hm] at hx
    cases hx
    rw [hmr]
    show ("user" : String) ≠ "assistant"
    decide
  | succ f ih =>
    intro st hv hu
    rcases loopBody_cases tm responses stream st with
      ⟨res, heq, _, hmsg, _⟩ | ⟨st', heq, _, ⟨a, b, hmsg⟩, _⟩
    · simp only [chatToolsLoop, heq]
      rcases hmsg with hsame | ⟨x, hadd⟩
      · rw [hsame]; exact hv
      · rw [hadd]
        obtain ⟨m, hm, hmr⟩ := hu
        refine validRoles_concat _ _ hv (Or.inr rfl) ?_
        intro y hy
        rw [hm] at hy
        cases hy
        rw [hmr]
        show ("user" : String) ≠ "assistant"
        decide
    · simp only [chatToolsLoop, heq]
      apply ih st'
      · rw [hmsg, show st.messages ++ [(⟨"assistant", a⟩ : Message), ⟨"user", b⟩] =
          (st.messages ++ [⟨"assistant", a⟩]) ++ [⟨"user", b⟩] by simp]
        obtain ⟨m, hm, hmr⟩ := hu
        refine validRoles_concat _ _ ?_ (Or.inl rfl) ?_
        · refine validRoles_concat _ _ hv (Or.inr rfl) ?_
          intro x hx
          rw [hm] at hx
          cases hx
          rw [hmr]
          show ("user" : String) ≠ "assistant"
          decide
        · intro x hx
          rw [List.getLast?_concat] at hx
          cases hx
          show ("assistant" : String) ≠ "user"
          decide
      · refine ⟨⟨"user", b⟩, ?_, rfl⟩
        rw [hmsg, show st.messages ++ [(⟨"assistant", a⟩ : Message), ⟨"user", b⟩] =
          (st.messages ++ [⟨"assistant", a⟩]) ++ [⟨"user", b⟩] by simp]
        exact List.getLast?_concat _

/-!
## Parser lemmas
-/

/-- A candidate that already carries `arguments` and names an available tool
is returned unchanged by normalization. -/
theorem normalize_with_arguments (tm : ToolManager) (fields : List (String × Json))
    (name : String) (t : Tool)
    (htool : dictGet fields "tool" = some (.str name))
    (hget : tm.get_tool name = some t)
    (hargs : (dictGet fields "arguments").isSome = true) :
    normalize_tool_call tm (.obj fields) = .ok (some (.obj fields)) := by
  unfold normalize_tool_call
  dsimp only
  rw [htool]
  dsimp only
  rw [hget]
  dsimp only
  rw [hargs]
  simp

/-- A candidate without `arguments` whose extra top-level keys meet the
tool's declared parameters is rebuilt as `(tool, arguments)` from exactly the
matching keys. -/
theorem normalize_flattened (tm : ToolManager) (fields : List (String × Json))
    (name : String) (t : Tool)
    (htool : dictGet fields "tool" = some (.str name))
    (hget : tm.get_tool name = some t)
    (hnone : dictGet fields "arguments" = none)
    (hne : matchedArgs t fields ≠ []) :
    normalize_tool_call tm (.obj fields) =
      .ok (some (.obj [("tool", .str name), ("arguments", .obj (matchedArgs t fields))])) := by
  unfold normalize_tool_call
  dsimp only
  rw [htool]
  dsimp only
  rw [hget]
  dsimp only
  rw [hnone]
  cases hml : matchedArgs t fields with
  | nil => exact absurd hml hne
  | cons a b =>
    rw [← hml]
    simp [hml]

/-- Unfolding of candidate processing at a cons cell. -/
theorem tryCands_cons (tm : ToolManager) (c : String) (rest : List String) :
    tryCands tm (c :: rest) =
      match jsonLoads c with
      | none => tryCands tm rest
      | some data =>
        match normalize_tool_call tm data with
        | .error e => .error e
        | .ok (some n) => .ok (some n)
        | .ok none => tryCands tm rest := rfl

/-- When the stripped response is brace-delimited, decodes, and normalizes,
the whole-response stage returns its normalization (it is tried first). -/
theorem parse_whole_response (tm : ToolManager) (text : String) (data call : Json)
    (h1 : firstCharIs (pyStrip text) lbrace = true)
    (h2 : lastCharIs (pyStrip text) rbrace = true)
    (hload : jsonLoads (pyStrip text) = some data)
    (hn : normalize_tool_call tm data = .ok (some call)) :
    parse_tool_call tm text = .ok (some call) := by
  unfold parse_tool_call
  dsimp only
  rw [h1, h2]
  simp only [Bool.and_self, eq_self_iff_true, if_true, List.singleton_append, List.cons_append]
  rw [tryCands_cons]
  simp only [hload]
  simp only [hn]

/-- Any call produced by normalization names a tool that passes the
`get_tool` gate. -/
theorem normalize_ok_some_available (tm : ToolManager) (data call : Json)
    (h : normalize_tool_call tm data = .ok (some call)) :
    (tm.get_tool (jGetStr call "tool")).isSome := by
  unfold normalize_tool_call at h
  cases data with
  | str s => simp at h
  | num n => simp at h
  | jbool b => simp at h
  | null => simp at h
  | arr xs => simp at h
  | obj fields =>
    dsimp only at h
    cases htool : dictGet fields "tool" with
    | none => rw [htool] at h; simp at h
    | some tv =>
      rw [htool] at h
      dsimp only at h
      cases tv with
      | num n => simp at h
      | jbool b => simp at h
      | null => simp at h
      | obj f2 => simp at h
      | arr xs => simp at h
      | str name =>
        dsimp only at h
        cases hget : tm.get_tool name with
        | none => rw [hget] at h; simp at h
        | some t =>
          rw [hget] at h
          dsimp only at h
          by_cases hargs : (dictGet fields "arguments").isSome = true
          · rw [if_pos hargs] at h
            simp only [Except.ok.injEq, Option.some.injEq] at h
            subst h
            simp [jGetStr, htool, hget]
          · rw [if_neg hargs] at h
            by_cases hml : (matchedArgs t fields).isEmpty = true
            · rw [if_pos hml] at h; simp at h
            · rw [if_neg hml] at h
              simp only [Except.ok.injEq, Option.some.injEq] at h
              subst h
              simp [jGetStr, dictGet, hget]

/-- Candidate processing only ever returns a call naming an available tool. -/
theorem tryCands_ok_some_available (tm : ToolManager) :
    ∀ (cands : List String) (call : Json), tryCands tm cands = .ok (some call) →
      (tm.get_tool (jGetStr call "tool")).isSome := by
  intro cands
  induction cands with
  | nil =>
    intro call h
    simp [tryCands] at h
  | cons c rest ih =>
    intro call h
    cases hl : jsonLoads c with
    | none =>
      simp only [tryCands, hl] at h
      exact ih call h
    | some data =>
      simp only [tryCands, hl] at h
      cases hn : normalize_tool_call tm data with
      | error e => rw [hn] at h; cases h
      | ok o =>
        rw [hn] at h
        cases o with
        | some n =>
          simp only [] at h
          cases h
          exact normalize_ok_some_available tm data _ hn
        | none => exact ih call h

/-- The parser only ever returns a call naming an available tool. -/
theorem parse_ok_some_available (tm : ToolManager) (text : String) (call : Json)
    (h : parse_tool_call tm text = .ok (some call)) :
    (tm.get_tool (jGetStr call "tool")).isSome := by
  unfold parse_tool_call at h
  exact tryCands_ok_some_available tm _ call h

/-!
## Registry and prompt lemmas
-/

/-- A successful dictionary lookup exhibits membership. -/
theorem dictGet_mem {α : Type} (l : List (String × α)) (k : String) (v : α)
    (h : dictGet l k = some v) : (k, v) ∈ l := by
  induction l with
  | nil => simp [dictGet] at h
  | cons kv rest ih =>
    obtain ⟨k', v'⟩ := kv
    unfold dictGet at h
    by_cases hk : k' = k
    · rw [if_pos hk] at h
      injection h with h
      subst hk
      subst h
      exact List.mem_cons_self _ _
    · rw [if_neg hk] at h
      exact List.mem_cons_of_mem _ (ih h)

/-- A tool's heading occurs in the concatenation of the sections of any list
containing it. -/
theorem heading_in_sections (t : Tool) (l : List Tool) (h : t ∈ l) :
    (toolHeading t).data <:+: (toolSections l).data := by
  induction l with
  | nil => cases h
  | cons x rest ih =>
    rcases List.mem_cons.mp h with h1 | h2
    · subst h1
      refine ⟨[], (sectionTail t).data ++ (toolSections rest).data, ?_⟩
      simp [toolSections, toolSection, String.data_append, List.append_assoc]
    · obtain ⟨s, e, hse⟩ := ih h2
      refine ⟨(toolSection x).data ++ s, e, ?_⟩
      rw [toolSections, String.data_append, ← hse]
      simp [List.append_assoc]

/-- Every available tool's `### name` heading occurs in the tools prompt. -/
theorem heading_in_prompt (tm : ToolManager) (t : Tool)
    (h : t ∈ tm.get_available_tools) :
    (toolHeading t).data <:+: (tm.get_tools_prompt).data := by
  obtain ⟨s, e, hse⟩ := heading_in_sections t _ h
  have hne : tm.get_available_tools.isEmpty = false := by
    cases hl : tm.get_available_tools with
    | nil => rw [hl] at h; cases h
    | cons a b => simp
  unfold ToolManager.get_tools_prompt
  dsimp only
  rw [hne]
  simp only [Bool.false_eq_true, if_false]
  refine ⟨promptHeader.data ++ s, e ++ promptFooter.data, ?_⟩
  rw [String.data_append, String.data_append, ← hse]
  simp [List.append_assoc]

/-!
## Claim theorems
-/

/-- C1: for every provider `P` (a real provider name, hence nonempty) and
every registered tool `T` that is not available for `P`, while the active
provider is `P` the registry lookup fails, any parsed call cannot name `T`
(the parser's normalization checks registration and availability), and no
turn — whatever the model responds — ever reaches `T`'s execute handler. -/
theorem excluded_tool_never_dispatched
    (tm : ToolManager) (P name : String) (T : Tool)
    (responses : Nat → Except String String) (stream : Bool)
    (session : List Message) (userMsg text : String) (call : Json)
    (kwargs : List (String × Json))
    (hp : tm.provider = some P) (hP : P ≠ "")
    (hreg : dictGet tm.tools name = some T)
    (hexcl : T.is_available_for P = false) :
    tm.get_tool name = none ∧
    tm.execute_tool name kwargs =
      (.error ("Tool not found or not available: " ++ name), []) ∧
    (parse_tool_call tm text = .ok (some call) → jGetStr call "tool" ≠ name) ∧
    name ∉ (runTurn tm responses stream session userMsg).invoked := by
  have hgt : tm.get_tool name = none := by
    unfold ToolManager.get_tool
    rw [hreg, hp]
    simp [hP, hexcl]
  refine ⟨hgt, by unfold ToolManager.execute_tool; rw [hgt], ?_, ?_⟩
  · intro hparse heq
    have hav := parse_ok_some_available tm text call hparse
    rw [heq, hgt] at hav
    simp at hav
  · intro hmem
    unfold runTurn chat_with_tools at hmem
    rcases chatToolsLoop_invoked_available tm responses stream tm.max_iterations _ name hmem with h | h
    · simp at h
    · rw [hgt] at h
      simp at h

/-- Witness for C1: with the builtin registry under provider `perplexity`,
the excluded `web_search` is invisible to `get_tool` and its handler is never
invoked during a concrete turn. -/
theorem excluded_tool_never_dispatched_witness :
    TMcalc.get_tool "web_search" = none ∧
    TMcalc.execute_tool "web_search" [] =
      (.error "Tool not found or not available: web_search", []) ∧
    "web_search" ∉ (runTurn TMcalc (fun _ => .ok calcCallText) false [] "hi").invoked := by
  have h := excluded_tool_never_dispatched TMcalc "perplexity" "web_search" webTool
    (fun _ => .ok calcCallText) false [] "hi" "" Json.null [] rfl (by decide) rfl rfl
  exact ⟨h.1, h.2.1, h.2.2.2⟩

/-- C2: for every sequence of model responses (including one that always
requests a tool call), a tool-loop turn performs at most `max_iterations`
loop iterations: the final value of the iteration counter never exceeds
`max_iterations`. -/
theorem turn_iterations_bounded (tm : ToolManager)
    (responses : Nat → Except String String) (stream : Bool)
    (session : List Message) (userMsg : String) :
    (runTurn tm responses stream session userMsg).iterations ≤ tm.max_iterations := by
  have h := chatToolsLoop_iterations_le tm responses stream tm.max_iterations
    { messages := session ++ [⟨"user", userMsg⟩], events := [], iterations := 0,
      calls := 0, invoked := [] }
  simpa [runTurn, chat_with_tools] using h

/-- C3: starting from an alternating transcript whose last message (if any)
is an assistant turn, a whole turn — whatever terminal state it reaches —
leaves the transcript's roles strictly alternating user/assistant; each
synthetic tool call/result pair is appended as an assistant-role then a
user-role message, which is what preserves the invariant. -/
theorem transcript_roles_alternate (tm : ToolManager)
    (responses : Nat → Except String String) (stream : Bool)
    (session : List Message) (userMsg : String)
    (h1 : validRoles session)
    (h2 : ∀ m, session.getLast? = some m → m.role = "assistant") :
    validRoles (runTurn tm responses stream session userMsg).messages := by
  unfold runTurn chat_with_tools
  apply chatToolsLoop_roles
  · refine validRoles_concat session ⟨"user", userMsg⟩ h1 (Or.inl rfl) ?_
    intro x hx
    rw [h2 x hx]
    show ("assistant" : String) ≠ "user"
    decide
  · exact ⟨⟨"user", userMsg⟩, List.getLast?_concat _, rfl⟩

/-- Witness for C3 at a concrete turn from the empty session. -/
theorem transcript_roles_alternate_witness :
    validRoles (runTurn TMcalc (fun _ => .ok "hello") false [] "hi").messages := by
  apply transcript_roles_alternate
  · exact ⟨List.chain'_nil, by simp⟩
  · intro m hm
    simp at hm

/-- A turn whose provider call fails with a transport error, started on a
well-formed two-message session. -/
def fatalRun : TurnResult :=
  runTurn TMcalc (fun _ => .error "Connection error") false
    [⟨"user", "earlier"⟩, ⟨"assistant", "before"⟩] "hi"

/-- C4, evaluated at the failing input: on a transport error the turn does
terminate immediately after surfacing the `ERROR` event, but the user message
appended at the start of the turn is NOT rolled back — the final transcript
still ends with it instead of reverting to the pre-turn transcript, contrary
to the claim (the sibling implementations `ppxai/client.py` and `ppxai.py`
pop the failed message; the engine client does not). -/
theorem transport_error_keeps_user_message :
    fatalRun.outcome = .fatal_error ∧
    fatalRun.events = [.error "Connection error"] ∧
    fatalRun.iterations = 1 ∧
    fatalRun.messages =
      [⟨"user", "earlier"⟩, ⟨"assistant", "before"⟩, ⟨"user", "hi"⟩] ∧
    fatalRun.messages ≠ [⟨"user", "earlier"⟩, ⟨"assistant", "before"⟩] := by
  refine ⟨rfl, rfl, rfl, rfl, ?_⟩
  intro h
  rw [show fatalRun.messages =
    [⟨"user", "earlier"⟩, ⟨"assistant", "before"⟩, ⟨"user", "hi"⟩] from rfl] at h
  simp at h

/-- The input on which the parser raises: a JSON object whose `tool` field is
itself an object, so `self._tools.get(tool_name)` hashes an unhashable key. -/
def unhashableInput : String := "\x7b\"tool\": \x7b\x7d\x7d"

/-- C5, evaluated at the failing input: the parser is robust on the claim's
enumerated inputs (empty string, plain prose, unbalanced JSON inside a fence,
flattened keys with extras), but it is NOT exception-free for every input
string — a `tool` field holding an object raises a `TypeError` out of
`parse` because only `json.JSONDecodeError` is caught. -/
theorem parse_raises_on_unhashable_tool_value :
    parse_tool_call TMcalc unhashableInput = .error unhashableError ∧
    parse_tool_call TMcalc "" = .ok none ∧
    parse_tool_call TMcalc "The capital of France is Paris." = .ok none ∧
    parse_tool_call TMcalc "```json\n\x7b\"a\": 1\n```" = .ok none ∧
    parse_tool_call TMcalc
        "\x7b\"tool\": \"calculator\", \"extra\": 1, \"expression\": \"2+2\"\x7d" =
      .ok (some (.obj [("tool", .str "calculator"),
        ("arguments", .obj [("expression", .str "2+2")])])) :=
  ⟨rfl, rfl, rfl, rfl, rfl⟩

/-- A model response that surrounds a fenced tool call (whose JSON object
contains nested braces) with prose, so only the code-block stage can match. -/
def fencedNestedText : String :=
  "Sure, I will compute it.\n```json\n\x7b\"tool\": \"calculator\", \"arguments\": \x7b\"expression\": \"2+2\"\x7d\x7d\n```\nOne moment."

/-- The full balanced object inside the fence of `fencedNestedText`. -/
def fencedNestedObj : String :=
  "\x7b\"tool\": \"calculator\", \"arguments\": \x7b\"expression\": \"2+2\"\x7d\x7d"

/-- C6: on a fenced ```json block whose object contains nested braces, the
code-block pattern captures the full balanced object — not a match truncated
at the first closing brace — and the parser returns the tool call parsed
from it. -/
theorem fenced_nested_braces_full_match :
    fenceScan (fencedNestedText.length + 1) fencedNestedText.data = [fencedNestedObj] ∧
    parse_tool_call TMcalc fencedNestedText =
      .ok (some (.obj [("tool", .str "calculator"),
        ("arguments", .obj [("expression", .str "2+2")])])) :=
  ⟨rfl, rfl⟩

/-- Counterexample to C7 as stated: a candidate with a `tool` key naming the
registered, available `calculator` and no `arguments` key, none of whose
remaining top-level keys (here: none at all) matches a declared parameter.
The claim prescribes the result `(tool, arguments = \x7b\x7d)`; the code
rejects the candidate and `parse` returns `None`. -/
theorem flatten_requires_matching_key_cex :
    TMcalc.get_tool "calculator" = some calcTool ∧
    parse_tool_call TMcalc "\x7b\"tool\": \"calculator\"\x7d" = .ok none ∧
    parse_tool_call TMcalc "\x7b\"tool\": \"calculator\"\x7d" ≠
      .ok (some (.obj [("tool", .str "calculator"), ("arguments", .obj [])])) := by
  refine ⟨rfl, rfl, ?_⟩
  intro h
  rw [show parse_tool_call TMcalc "\x7b\"tool\": \"calculator\"\x7d" = .ok none from rfl] at h
  simp at h

/-- C7 as amended: for a whole-response candidate with a `tool` key naming a
registered, available tool and no `arguments` key, *provided at least one*
other top-level key appears in the tool's declared parameter properties,
parse returns `(tool, arguments)` where `arguments` holds exactly the
matching top-level keys. -/
theorem flattened_args_synthesized
    (tm : ToolManager) (text name : String) (t : Tool) (fields : List (String × Json))
    (h1 : firstCharIs (pyStrip text) lbrace = true)
    (h2 : lastCharIs (pyStrip text) rbrace = true)
    (hload : jsonLoads (pyStrip text) = some (.obj fields))
    (htool : dictGet fields "tool" = some (.str name))
    (hget : tm.get_tool name = some t)
    (hnone : dictGet fields "arguments" = none)
    (hne : matchedArgs t fields ≠ []) :
    parse_tool_call tm text =
      .ok (some (.obj [("tool", .str name), ("arguments", .obj (matchedArgs t fields))])) :=
  parse_whole_response tm text _ _ h1 h2 hload
    (normalize_flattened tm fields name t htool hget hnone hne)

/-- Witness for C7's amended claim: the spec's flattened calculator scenario. -/
theorem flattened_args_synthesized_witness :
    parse_tool_call TMcalc "\x7b\"tool\": \"calculator\", \"expression\": \"2+2\"\x7d" =
      .ok (some (.obj [("tool", .str "calculator"),
        ("arguments", .obj [("expression", .str "2+2")])])) :=
  flattened_args_synthesized TMcalc
    "\x7b\"tool\": \"calculator\", \"expression\": \"2+2\"\x7d"
    "calculator" calcTool
    [("tool", .str "calculator"), ("expression", .str "2+2")]
    rfl rfl rfl rfl rfl rfl (List.cons_ne_nil _ _)

/-- The C8 scenario: `max_iterations = 3` and a model that answers every
request with the same valid calculator call. -/
def budgetRun : TurnResult :=
  runTurn TM3 (fun _ => .ok calcCallText) false [] "compute"

/-- C8: with `max_iterations = 3` and every response a valid tool call, the
loop stops in the budget-exceeded state after exactly 3 iterations, the last
event is the `INFO` event, and the transcript ends with the synthetic
budget-exceeded assistant message. -/
theorem budget_exceeded_exactly_three :
    budgetRun.outcome = .budget_exceeded ∧
    budgetRun.iterations = 3 ∧
    budgetRun.events.getLast? = some (.info budgetInfo) ∧
    budgetRun.messages.getLast? = some ⟨"assistant", budgetMsg⟩ :=
  ⟨rfl, rfl, rfl, rfl⟩

/-- C9: a text that is exactly a well-formed `(tool, arguments)` object
naming a registered, available tool parses to exactly the decoded structure,
unchanged — parse is the identity on already-normalized input. -/
theorem parse_identity_on_normalized
    (tm : ToolManager) (text name : String) (t : Tool) (args : Json)
    (h1 : firstCharIs (pyStrip text) lbrace = true)
    (h2 : lastCharIs (pyStrip text) rbrace = true)
    (hload : jsonLoads (pyStrip text) = some (.obj [("tool", .str name), ("arguments", args)]))
    (hget : tm.get_tool name = some t) :
    parse_tool_call tm text = .ok (some (.obj [("tool", .str name), ("arguments", args)])) :=
  parse_whole_response tm text _ _ h1 h2 hload
    (normalize_with_arguments tm [("tool", .str name), ("arguments", args)] name t
      (by simp [dictGet]) hget (by simp [dictGet]))

/-- Witness for C9 at a concrete normalized call. -/
theorem parse_identity_on_normalized_witness :
    parse_tool_call TMcalc
        "\x7b\"tool\": \"calculator\", \"arguments\": \x7b\"expression\": \"3*3\"\x7d\x7d" =
      .ok (some (.obj [("tool", .str "calculator"),
        ("arguments", .obj [("expression", .str "3*3")])])) :=
  parse_identity_on_normalized TMcalc
    "\x7b\"tool\": \"calculator\", \"arguments\": \x7b\"expression\": \"3*3\"\x7d\x7d"
    "calculator" calcTool (.obj [("expression", .str "3*3")]) rfl rfl rfl rfl

/-- C10: when `set_provider` was never called (`provider = None`), no
availability filtering happens: every registered tool — including ones with
`provider_excluded`/`provider_specific` set — is returned by `get_tool`,
appears in `get_available_tools`, has its section heading in the tools
prompt, and is dispatched to its handler by `execute_tool`. -/
theorem no_provider_no_filtering
    (tm : ToolManager) (name : String) (t : Tool) (kwargs : List (String × Json))
    (hp : tm.provider = none)
    (hreg : dictGet tm.tools name = some t) :
    tm.get_tool name = some t ∧
    t ∈ tm.get_available_tools ∧
    (toolHeading t).data <:+: (tm.get_tools_prompt).data ∧
    tm.execute_tool name kwargs = (t.handler kwargs, [name]) := by
  have h1 : tm.get_tool name = some t := by
    unfold ToolManager.get_tool
    rw [hreg, hp]
  have h2 : t ∈ tm.get_available_tools := by
    unfold ToolManager.get_available_tools
    rw [hp]
    exact List.mem_map_of_mem _ (dictGet_mem _ _ _ hreg)
  refine ⟨h1, h2, heading_in_prompt tm t h2, ?_⟩
  unfold ToolManager.execute_tool
  rw [h1]

/-- Witness for C10: with no provider set, the `provider_excluded` tool
`web_search` is visible and dispatchable. -/
theorem no_provider_no_filtering_witness :
    TMnoProv.get_tool "web_search" = some webTool ∧
    webTool ∈ TMnoProv.get_available_tools ∧
    (toolHeading webTool).data <:+: (TMnoProv.get_tools_prompt).data ∧
    TMnoProv.execute_tool "web_search" [] = (webTool.handler [], ["web_search"]) :=
  no_provider_no_filtering TMnoProv "web_search" webTool [] rfl rfl

end PPXAI
